import Mathlib

/-!
Shallow embedding of the scoring and aggregation core of the
hubspot-trackerrms-revenue-attribution-app repository.

The embedded code is the `ScoringService` class (shipped inside
`src/src/timeline/timeline-service.js`, second chunk of that file) and the
`DashboardService` class (`src/unnamed/part_002`, a dashboard-service module
that requires the scoring service).

Modelling conventions:
- JavaScript numbers are modelled as rationals (`ℚ`); `Math.round` is
  round-half-up (`jsRound`), which is what `Math.round` computes.
- A date-valued record field is a `DateField`: `absent` models a falsy value
  (`undefined` / `null` / empty string), `invalid` a truthy value that does
  not parse to a valid `Date`, and `valid ms` a value parsing to the
  timestamp `ms` (milliseconds since epoch).
- Optional numeric / string fields are `Option ℚ` / `Option String`;
  JavaScript `x || d` defaulting is `Option.getD` for numbers (a present `0`
  is falsy and defaults to `0` = `getD 0`) and `strOr` for strings (a present
  empty string is falsy).
- A JavaScript object used as a string-keyed map (insertion-ordered, unique
  keys) is an association list updated by find-or-append.
- Code that can throw is embedded in `Except String`; the only throwing
  operation reachable from domain data is `Date.prototype.toISOString` on an
  invalid date (a `RangeError`).
-/

/-- JavaScript `Math.round`: round half toward positive infinity. -/
def jsRound (q : ℚ) : ℤ := Int.floor (q + 1 / 2)

/-- A date-valued field of a raw record: falsy (`absent`), truthy but
unparsable (`invalid`), or parsing to a timestamp in milliseconds. -/
inductive DateField
  | absent
  | invalid
  | valid (ms : ℚ)
deriving DecidableEq, Repr

/-- JavaScript `a || b` on date-valued fields: only `absent` is falsy. -/
def DateField.orElse : DateField → DateField → DateField
  | .absent, b => b
  | .invalid, _ => .invalid
  | .valid ms, _ => .valid ms

/-- `new Date(x).getTime()` when it is not `NaN`: `new Date(undefined)` and a
non-parsing string both give an invalid date (`none`). -/
def DateField.toMs : DateField → Option ℚ
  | .absent => none
  | .invalid => none
  | .valid ms => some ms

/-- JavaScript `s || d` for string fields: `undefined` and `""` are falsy. -/
def strOr (s : Option String) (d : String) : String :=
  match s with
  | some v => if v = "" then d else v
  | none => d

/-- Attribution substructure of a placement: marketing and sales cost. -/
structure Attribution where
  marketingCost : Option ℚ
  salesCost : Option ℚ
deriving DecidableEq, Repr

/-- The job fields read by the scoring core. -/
structure Job where
  createdAt : DateField
  openDate : DateField
deriving DecidableEq, Repr

/-- The placement fields read by the scoring and dashboard core. -/
structure Placement where
  serviceLine : Option String
  revenue : Option ℚ
  margin : Option ℚ
  velocityScore : Option ℚ
  startDate : DateField
  createdAt : DateField
  job : Option Job
  attribution : Option Attribution
deriving DecidableEq, Repr

/-- A placement with every field absent. -/
def emptyPlacement : Placement :=
  ⟨none, none, none, none, .absent, .absent, none, none⟩

/-- The divisor `1000 * 60 * 60 * 24` used to turn a millisecond delta into
fractional 24-hour days. -/
def msPerDay : ℚ := 1000 * 60 * 60 * 24

/-- `ScoringService.calculateVelocityScore` (timeline-service.js:154-194).
`none` arguments model a null/missing `placement` or `job`.  The
`try`/`catch` of the source never fires on the embedded operations, which
are total. -/
def calculateVelocityScore (placement : Option Placement) (job : Option Job) : ℤ :=
  match placement, job with
  | some p, some j =>
    match (j.createdAt.orElse j.openDate).toMs, (p.startDate.orElse p.createdAt).toMs with
    | some jobMs, some fillMs =>
      let daysToFill : ℚ := (fillMs - jobMs) / msPerDay
      if daysToFill < 0 then
        100
      else
        jsRound (max 10 (min 100 (100 - daysToFill * 2)))
    | _, _ => 0
  | _, _ => 0

/-- `ScoringService.calculateROIScore` (timeline-service.js:202-232).
The JavaScript default parameter `attributionData = {}` is modelled by
`none`, on which every cost field defaults to `0`. -/
def calculateROIScore (placement : Option Placement)
    (attributionData : Option Attribution) : ℤ :=
  match placement with
  | none => 0
  | some p =>
    let revenue := p.revenue.getD 0
    let margin := p.margin.getD 0
    let marketingCost := (attributionData.bind Attribution.marketingCost).getD 0
    let salesCost := (attributionData.bind Attribution.salesCost).getD 0
    let totalCost := marketingCost + salesCost
    if totalCost = 0 then
      let marginPercentage : ℚ := if revenue > 0 then margin / revenue * 100 else 0
      min 100 (jsRound (marginPercentage * 2))
    else
      let roi := (revenue - totalCost) / totalCost * 100
      min 100 (max 0 (jsRound (roi / 5)))

/-- The caller-supplied scoring weights (`{velocity, roi}`). -/
structure Weights where
  velocity : ℚ
  roi : ℚ
deriving DecidableEq, Repr

/-- The JavaScript default parameter `{ velocity: 0.4, roi: 0.6 }`. -/
def defaultWeights : Weights := ⟨2 / 5, 3 / 5⟩

/-- `ScoringService.normalizeWeights` (timeline-service.js:300-311):
`Object.values(weights)` on a `{velocity, roi}` object sums the two fields. -/
def normalizeWeights (weights : Weights) : Weights :=
  let total := weights.velocity + weights.roi
  if total = 0 then ⟨1 / 2, 1 / 2⟩
  else ⟨weights.velocity / total, weights.roi / total⟩

/-- `ScoringService.calculateOverallScore` (timeline-service.js:286-293).
Callers relying on the JavaScript default weights pass `defaultWeights`. -/
def calculateOverallScore (velocityScore roiScore : ℚ) (weights : Weights) : ℤ :=
  let normalizedWeights := normalizeWeights weights
  jsRound (velocityScore * normalizedWeights.velocity +
    roiScore * normalizedWeights.roi)

/-- `ScoringService.getScoreTier` (timeline-service.js:338-344). -/
def getScoreTier (score : ℚ) : String :=
  if score ≥ 90 then "excellent"
  else if score ≥ 75 then "good"
  else if score ≥ 50 then "average"
  else if score ≥ 25 then "below_average"
  else "poor"

/-- JavaScript truthiness of an optional numeric field. -/
def numTruthy (o : Option ℚ) : Bool :=
  match o with
  | some v => v ≠ 0
  | none => false

/-- Per-service-line accumulator of `calculateServiceLineAttribution` before
the averaging pass (still carries the internal `velocityScores` list). -/
structure LineAcc where
  serviceLine : String
  placementCount : ℕ
  totalRevenue : ℚ
  totalMargin : ℚ
  velocityScores : List ℚ
deriving DecidableEq, Repr

/-- The freshly initialized entry `attribution[serviceLine]`. -/
def initAcc (k : String) : LineAcc := ⟨k, 0, 0, 0, []⟩

/-- One loop body of `calculateServiceLineAttribution`: bump the counters of
the entry for this placement's service line; the velocity score is pushed
only when truthy (`if (placement.velocityScore)`). -/
def bump (p : Placement) (a : LineAcc) : LineAcc :=
  ⟨a.serviceLine, a.placementCount + 1,
    a.totalRevenue + p.revenue.getD 0,
    a.totalMargin + p.margin.getD 0,
    if numTruthy p.velocityScore then a.velocityScores ++ [p.velocityScore.getD 0]
    else a.velocityScores⟩

/-- The service line key of a placement: `placement.serviceLine || 'Unassigned'`. -/
def slKey (p : Placement) : String := strOr p.serviceLine "Unassigned"

/-- One iteration of the grouping loop over the insertion-ordered map of
service lines: update the existing entry or append a fresh one. -/
def addPlacement (acc : List LineAcc) (p : Placement) : List LineAcc :=
  let k := slKey p
  if acc.any (fun a => a.serviceLine = k) then
    acc.map (fun a => if a.serviceLine = k then bump p a else a)
  else
    acc ++ [bump p (initAcc k)]

/-- The per-line record after the averaging pass (the `velocityScores` list
is deleted by the source; it is dropped here). -/
structure LineStat where
  serviceLine : String
  placementCount : ℕ
  totalRevenue : ℚ
  totalMargin : ℚ
  averageVelocity : ℤ
deriving DecidableEq, Repr

/-- The averaging pass of `calculateServiceLineAttribution`: `averageVelocity`
stays `0` when no velocity score was collected. -/
def finalizeAcc (a : LineAcc) : LineStat :=
  ⟨a.serviceLine, a.placementCount, a.totalRevenue, a.totalMargin,
    if 0 < a.velocityScores.length then
      jsRound (a.velocityScores.sum / a.velocityScores.length)
    else 0⟩

/-- `ScoringService.calculateServiceLineAttribution` (timeline-service.js:
239-277), as the insertion-ordered list of per-service-line records. -/
def calculateServiceLineAttribution (placements : List Placement) : List LineStat :=
  (placements.foldl addPlacement []).map finalizeAcc

/-- A record of `batchCalculateScores`: the original placement fields
(spread) plus the three computed scores. -/
structure ScoredPlacement where
  base : Placement
  velocityScore : ℤ
  roiScore : ℤ
  overallScore : ℤ
deriving DecidableEq, Repr

/-- `ScoringService.batchCalculateScores` (timeline-service.js:318-331).
`calculateOverallScore` is called without a weights argument, so with the
JavaScript default weights. -/
def batchCalculateScores (placements : List Placement) : List ScoredPlacement :=
  placements.map fun placement =>
    let velocityScore := calculateVelocityScore (some placement) placement.job
    let roiScore := calculateROIScore (some placement) placement.attribution
    let overallScore :=
      calculateOverallScore (velocityScore : ℚ) (roiScore : ℚ) defaultWeights
    ⟨placement, velocityScore, roiScore, overallScore⟩

/-- The five-bucket histogram of `DashboardService.calculateScoreDistribution`;
the fields stand for the literal keys `"excellent (90-100)"`, `"good (75-89)"`,
`"average (50-74)"`, `"below_average (25-49)"`, `"poor (0-24)"` (see
`Distribution.get`). -/
structure Distribution where
  excellent : ℕ
  good : ℕ
  average : ℕ
  below_average : ℕ
  poor : ℕ
deriving DecidableEq, Repr

/-- Look a bucket up by its literal JavaScript key. -/
def Distribution.get (d : Distribution) (key : String) : Option ℕ :=
  if key = "excellent (90-100)" then some d.excellent
  else if key = "good (75-89)" then some d.good
  else if key = "average (50-74)" then some d.average
  else if key = "below_average (25-49)" then some d.below_average
  else if key = "poor (0-24)" then some d.poor
  else none

/-- One iteration of the histogram loop of `calculateScoreDistribution`. -/
def bumpBucket (d : Distribution) (score : ℚ) : Distribution :=
  if score ≥ 90 then { d with excellent := d.excellent + 1 }
  else if score ≥ 75 then { d with good := d.good + 1 }
  else if score ≥ 50 then { d with average := d.average + 1 }
  else if score ≥ 25 then { d with below_average := d.below_average + 1 }
  else { d with poor := d.poor + 1 }

/-- `DashboardService.calculateScoreDistribution` (part_002:236-254). -/
def calculateScoreDistribution (scores : List ℚ) : Distribution :=
  scores.foldl bumpBucket ⟨0, 0, 0, 0, 0⟩

/-- Zero-pad a (non-negative) integer to at least two digits, as in the
month part of `Date.prototype.toISOString`. -/
def pad2 (n : ℤ) : String :=
  if n < 10 then "0" ++ toString n else toString n

/-- Zero-pad a (non-negative) integer to at least four digits, as in the
year part of `Date.prototype.toISOString`. -/
def pad4 (n : ℤ) : String :=
  if n < 10 then "000" ++ toString n
  else if n < 100 then "00" ++ toString n
  else if n < 1000 then "0" ++ toString n
  else toString n

/-- Proleptic-Gregorian civil year and month of a day count relative to
1970-01-01 (the classic days-to-civil conversion, on integers). -/
def civilFromDays (z : ℤ) : ℤ × ℤ :=
  let z := z + 719468
  let era := (if 0 ≤ z then z else z - 146096) / 146097
  let doe := z - era * 146097
  let yoe := (doe - doe / 1460 + doe / 36524 - doe / 146096) / 365
  let y := yoe + era * 400
  let doy := doe - (365 * yoe + yoe / 4 - yoe / 100)
  let mp := (5 * doy + 2) / 153
  let m := mp + (if mp < 10 then 3 else -9)
  (y + (if m ≤ 2 then 1 else 0), m)

/-- `new Date(ms).toISOString().substring(0, 7)`: the `YYYY-MM` month key of
a valid timestamp (UTC).  Total on valid dates; the `RangeError` that
`toISOString` raises on an invalid date is handled at the call site. -/
def monthKeyOfMs (ms : ℚ) : String :=
  let (y, m) := civilFromDays (Int.floor (ms / 86400000))
  pad4 y ++ "-" ++ pad2 m

/-- Per-service-line accumulator (`velocityByServiceLine[serviceLine]`) of
`getPlacementVelocityData`: pushed scores and a count. -/
structure VBSAcc where
  serviceLine : String
  scores : List ℤ
  count : ℕ
deriving DecidableEq, Repr

/-- Monthly trend accumulator (`velocityTrend` entry) of
`getPlacementVelocityData`. -/
structure TrendAcc where
  month : String
  scores : List ℤ
deriving DecidableEq, Repr

/-- One `byServiceLine` record of the velocity dashboard. -/
structure ServiceLineVelocity where
  serviceLine : String
  averageVelocity : ℤ
  placementCount : ℕ
  tier : String
deriving DecidableEq, Repr

/-- One sorted `trend` record of the velocity dashboard. -/
structure TrendPoint where
  month : String
  averageVelocity : ℤ
deriving DecidableEq, Repr

/-- The `summary` object of the velocity dashboard. -/
structure VelocitySummary where
  overallAverageVelocity : ℤ
  tier : String
  totalPlacements : ℕ
deriving DecidableEq, Repr

/-- The return shape of `getPlacementVelocityData`. -/
structure VelocityDashboard where
  summary : VelocitySummary
  byServiceLine : List ServiceLineVelocity
  trend : List TrendPoint
  distribution : Distribution
deriving DecidableEq, Repr

/-- One iteration of the main loop of `getPlacementVelocityData`
(part_002:61-84): bump the service-line accumulator, then bucket the record
into the monthly trend — throwing (`Except.error`) when
`new Date(placement.startDate || placement.createdAt)` is invalid, because
`toISOString` raises a `RangeError` there. -/
def stepVelocity (st : List VBSAcc × List TrendAcc) (sp : ScoredPlacement) :
    Except String (List VBSAcc × List TrendAcc) :=
  let serviceLine := strOr sp.base.serviceLine "Unassigned"
  let vbs :=
    if st.1.any (fun a => a.serviceLine = serviceLine) then
      st.1.map (fun a =>
        if a.serviceLine = serviceLine then
          ⟨a.serviceLine, a.scores ++ [sp.velocityScore], a.count + 1⟩
        else a)
    else
      st.1 ++ [⟨serviceLine, [sp.velocityScore], 1⟩]
  match (sp.base.startDate.orElse sp.base.createdAt).toMs with
  | none => .error "RangeError: Invalid time value"
  | some ms =>
    let month := monthKeyOfMs ms
    let trend :=
      if st.2.any (fun t => t.month = month) then
        st.2.map (fun t =>
          if t.month = month then ⟨t.month, t.scores ++ [sp.velocityScore]⟩ else t)
      else
        st.2 ++ [⟨month, [sp.velocityScore]⟩]
    .ok (vbs, trend)

/-- The `for (const placement of placementsWithScores)` loop of
`getPlacementVelocityData`, threading the two accumulators and propagating
the `RangeError`. -/
def velocityLoop (st : List VBSAcc × List TrendAcc) :
    List ScoredPlacement → Except String (List VBSAcc × List TrendAcc)
  | [] => .ok st
  | sp :: rest =>
    match stepVelocity st sp with
    | .error e => .error e
    | .ok st' => velocityLoop st' rest

/-- `DashboardService.getPlacementVelocityData` (part_002:55-126), embedded
in `Except String` because its month-trend computation throws on a missing
or unparsable fill timestamp.  `Array.prototype.sort` with
`localeCompare` on ASCII month keys is a stable lexicographic sort. -/
def getPlacementVelocityData (placements : List Placement) :
    Except String VelocityDashboard :=
  let placementsWithScores := batchCalculateScores placements
  match velocityLoop ([], []) placementsWithScores with
  | .error e => .error e
  | .ok (velocityByServiceLine, velocityTrend) =>
    let serviceLineStats := velocityByServiceLine.map (fun data =>
      ⟨data.serviceLine,
        jsRound ((data.scores.sum : ℚ) / (data.scores.length : ℚ)),
        data.count,
        getScoreTier ((data.scores.sum : ℚ) / (data.scores.length : ℚ))⟩)
    let trendData :=
      (List.insertionSort (fun a b => a.month ≤ b.month) velocityTrend).map
        (fun t => ⟨t.month, jsRound ((t.scores.sum : ℚ) / (t.scores.length : ℚ))⟩)
    let overallAverage : ℤ :=
      if 0 < placementsWithScores.length then
        jsRound (((placementsWithScores.map ScoredPlacement.velocityScore).sum : ℚ) /
          (placementsWithScores.length : ℚ))
      else 0
    .ok ⟨⟨overallAverage, getScoreTier (overallAverage : ℚ), placements.length⟩,
      serviceLineStats, trendData,
      calculateScoreDistribution
        (placementsWithScores.map (fun p => (p.velocityScore : ℚ)))⟩

/-! Concrete records used to evaluate the embedded code at specific inputs. -/

/-- A placement with positive revenue, negative margin and no cost data. -/
def lossyPlacement : Placement :=
  ⟨none, some 100, some (-100), none, .absent, .absent, none, none⟩

/-- The placement `{revenue: 10000, margin: 2000}` of the spec's example. -/
def marginPlacement : Placement :=
  ⟨none, some 10000, some 2000, none, .absent, .absent, none, none⟩

/-- A placement with negative revenue and positive margin, no cost data. -/
def negRevenuePlacement : Placement :=
  ⟨none, some (-100), some 50, none, .absent, .absent, none, none⟩

/-- A placement on service line `"A"` carrying `velocityScore: 100`. -/
def linePlacementHi : Placement :=
  ⟨some "A", none, none, some 100, .absent, .absent, none, none⟩

/-- A placement on service line `"A"` carrying `velocityScore: 0` (a value
`batchCalculateScores` itself produces for malformed records). -/
def linePlacementZero : Placement :=
  ⟨some "A", none, none, some 0, .absent, .absent, none, none⟩

/-- A placement whose fill timestamp parses (epoch). -/
def epochPlacement : Placement :=
  ⟨none, none, none, none, .valid 0, .absent, none, none⟩

/-- A job opened at the epoch. -/
def epochJob : Job := ⟨.valid 0, .absent⟩

/-- A placement filled one day before `epochJob` was opened. -/
def earlyPlacement : Placement :=
  ⟨none, none, none, none, .valid (-86400000), .absent, none, none⟩

/-! General lemmas. -/

/-- Rounding an integer-valued rational returns that integer. -/
theorem jsRound_intCast (n : ℤ) : jsRound (n : ℚ) = n := by
  unfold jsRound
  rw [Int.floor_eq_iff]
  constructor
  · linarith
  · linarith

/-- The two clamp orders agree for the velocity bounds. -/
theorem max_min_comm_clamp (x : ℚ) :
    max 10 (min 100 (x : ℚ)) = min 100 (max 10 x) := by
  rw [max_def, min_def, max_def, min_def]
  split_ifs <;> linarith

/-- The guarded branch of `calculateVelocityScore` once both dates parse. -/
theorem calculateVelocityScore_parsed (p : Placement) (j : Job) (jobMs fillMs : ℚ)
    (hj : (j.createdAt.orElse j.openDate).toMs = some jobMs)
    (hp : (p.startDate.orElse p.createdAt).toMs = some fillMs) :
    calculateVelocityScore (some p) (some j) =
      if (fillMs - jobMs) / msPerDay < 0 then 100
      else jsRound (max 10 (min 100 (100 - (fillMs - jobMs) / msPerDay * 2))) := by
  show (match (j.createdAt.orElse j.openDate).toMs,
      (p.startDate.orElse p.createdAt).toMs with
    | some jobMs, some fillMs =>
      let daysToFill := (fillMs - jobMs) / msPerDay
      if daysToFill < 0 then (100 : ℤ)
      else jsRound (max 10 (min 100 (100 - daysToFill * 2)))
    | _, _ => 0) = _
  rw [hj, hp]

/-! Claim theorems. -/

/-- C1: the Scoring Engine's contract says every score is an integer in
[0, 100], and the code documents `calculateROIScore` as returning 0-100, but
the margin-fallback branch only caps the upper bound: a placement with
revenue 100, margin -100 and no cost data scores -200, outside [0, 100]. -/
theorem C1_roi_fallback_escapes_range :
    calculateROIScore (some lossyPlacement) none = -200 ∧
    calculateROIScore (some lossyPlacement) none < 0 := by
  constructor <;> norm_num [calculateROIScore, lossyPlacement, jsRound]

/-- C4: when both timestamps parse and `daysToFill` is non-negative,
`calculateVelocityScore` is the rounded clamp of `100 - daysToFill * 2` to
[10, 100]; equal timestamps give 100 and `daysToFill ≥ 45` gives 10. -/
theorem C4_velocity_decay (p : Placement) (j : Job) (jobMs fillMs : ℚ)
    (hj : (j.createdAt.orElse j.openDate).toMs = some jobMs)
    (hp : (p.startDate.orElse p.createdAt).toMs = some fillMs)
    (hd : 0 ≤ (fillMs - jobMs) / msPerDay) :
    calculateVelocityScore (some p) (some j) =
      jsRound (min 100 (max 10 (100 - (fillMs - jobMs) / msPerDay * 2))) ∧
    (fillMs = jobMs → calculateVelocityScore (some p) (some j) = 100) ∧
    (45 ≤ (fillMs - jobMs) / msPerDay →
      calculateVelocityScore (some p) (some j) = 10) := by
  have hbody : calculateVelocityScore (some p) (some j) =
      jsRound (max 10 (min 100 (100 - (fillMs - jobMs) / msPerDay * 2))) := by
    rw [calculateVelocityScore_parsed p j jobMs fillMs hj hp,
      if_neg (not_lt.mpr hd)]
  refine ⟨by rw [hbody, max_min_comm_clamp], ?_, ?_⟩
  · intro he
    have hz : (fillMs - jobMs) / msPerDay = 0 := by
      rw [he, sub_self, zero_div]
    rw [hbody, hz]
    norm_num
    exact jsRound_intCast 100
  · intro h45
    have hle : 100 - (fillMs - jobMs) / msPerDay * 2 ≤ 10 := by linarith
    rw [hbody, min_eq_right (by linarith), max_eq_left hle]
    exact jsRound_intCast 10

/-- C4 witness: a same-instant fill and open timestamp scores 100. -/
theorem C4_witness : calculateVelocityScore (some epochPlacement) (some epochJob) = 100 :=
  (C4_velocity_decay epochPlacement epochJob 0 0 rfl rfl (by norm_num)).2.1 rfl

/-- C5: when both timestamps parse and `daysToFill` is negative (fill
recorded before job open), `calculateVelocityScore` returns the maximum
score 100. -/
theorem C5_negative_days_best_case (p : Placement) (j : Job) (jobMs fillMs : ℚ)
    (hj : (j.createdAt.orElse j.openDate).toMs = some jobMs)
    (hp : (p.startDate.orElse p.createdAt).toMs = some fillMs)
    (hd : (fillMs - jobMs) / msPerDay < 0) :
    calculateVelocityScore (some p) (some j) = 100 := by
  rw [calculateVelocityScore_parsed p j jobMs fillMs hj hp, if_pos hd]

/-- C5 witness: a placement filled one day before the job opened scores 100. -/
theorem C5_witness : calculateVelocityScore (some earlyPlacement) (some epochJob) = 100 :=
  C5_negative_days_best_case earlyPlacement epochJob 0 (-86400000) rfl rfl
    (by norm_num [msPerDay])

/-- `calculateOverallScore` unfolded to the weighted sum. -/
theorem calculateOverallScore_eq (v r : ℚ) (w : Weights) :
    calculateOverallScore v r w =
      jsRound (v * (normalizeWeights w).velocity + r * (normalizeWeights w).roi) := rfl

/-- `normalizeWeights` unfolded. -/
theorem normalizeWeights_eq (w : Weights) :
    normalizeWeights w = if w.velocity + w.roi = 0 then ⟨1 / 2, 1 / 2⟩
      else ⟨w.velocity / (w.velocity + w.roi), w.roi / (w.velocity + w.roi)⟩ := rfl

/-- C6: with zero total attribution cost, `calculateROIScore` is the
margin-percentage proxy, doubled and capped above at 100 — but the guard is
`revenue > 0`, so zero *and negative* revenue short-circuit the percentage
to 0. -/
theorem C6_margin_fallback (p : Placement) (a? : Option Attribution)
    (hc : (a?.bind Attribution.marketingCost).getD 0 +
      (a?.bind Attribution.salesCost).getD 0 = 0) :
    calculateROIScore (some p) a? =
      min 100 (jsRound ((if p.revenue.getD 0 > 0
        then p.margin.getD 0 / p.revenue.getD 0 * 100 else 0) * 2)) := by
  show (if (a?.bind Attribution.marketingCost).getD 0 +
      (a?.bind Attribution.salesCost).getD 0 = 0 then
      min 100 (jsRound ((if p.revenue.getD 0 > 0
        then p.margin.getD 0 / p.revenue.getD 0 * 100 else 0) * 2))
    else
      min 100 (max 0 (jsRound ((p.revenue.getD 0 -
        ((a?.bind Attribution.marketingCost).getD 0 +
          (a?.bind Attribution.salesCost).getD 0)) /
        ((a?.bind Attribution.marketingCost).getD 0 +
          (a?.bind Attribution.salesCost).getD 0) * 100 / 5)))) = _
  rw [if_pos hc]

/-- C6 counterexample to the claim as frozen: for revenue -100, margin 50
and no cost data the claim's formula (`marginPercentage` zeroed only when
`revenue == 0`) gives -100, but the code returns 0. -/
theorem C6_counterexample :
    calculateROIScore (some negRevenuePlacement) none = 0 ∧
    min 100 (jsRound ((50 : ℚ) / (-100) * 100 * 2)) = -100 ∧
    (0 : ℤ) ≠ -100 := by
  refine ⟨?_, ?_, by norm_num⟩
  · norm_num [calculateROIScore, negRevenuePlacement, jsRound]
  · norm_num [jsRound]

/-- C6 witness: the spec's example — revenue 10000, margin 2000, no cost
data — scores 40. -/
theorem C6_witness : calculateROIScore (some marginPlacement) none = 40 := by
  have h := C6_margin_fallback marginPlacement none (by norm_num)
  rw [h]
  norm_num [marginPlacement, jsRound]

/-- C7: `calculateOverallScore` is the rounded weighted sum with weights
normalized to sum 1, falling back to the even 0.5/0.5 split when the raw sum
is 0, for arbitrary caller-supplied weights; the spec's two examples hold. -/
theorem C7_overall_weighted_sum (v r : ℚ) (w : Weights) :
    (w.velocity + w.roi ≠ 0 →
      calculateOverallScore v r w =
        jsRound ((v * w.velocity + r * w.roi) / (w.velocity + w.roi))) ∧
    (w.velocity + w.roi = 0 →
      calculateOverallScore v r w = jsRound ((v + r) / 2)) ∧
    calculateOverallScore 80 60 defaultWeights = 68 ∧
    calculateOverallScore 100 50 ⟨1 / 2, 1 / 2⟩ = 75 := by
  refine ⟨?_, ?_, ?_, ?_⟩
  · intro h
    rw [calculateOverallScore_eq, normalizeWeights_eq, if_neg h]
    dsimp only
    congr 1
    field_simp
  · intro h
    rw [calculateOverallScore_eq, normalizeWeights_eq, if_pos h]
    dsimp only
    congr 1
    ring
  · norm_num [calculateOverallScore, normalizeWeights, defaultWeights, jsRound]
  · norm_num [calculateOverallScore, normalizeWeights, jsRound]

/-- C7 witness: the default weight pair has raw sum 1, and the normalized
weighted sum at (80, 60) rounds to the claimed value. -/
theorem C7_witness :
    calculateOverallScore 80 60 ⟨2 / 5, 3 / 5⟩ =
      jsRound ((80 * (2 / 5) + 60 * (3 / 5)) / (2 / 5 + 3 / 5)) :=
  (C7_overall_weighted_sum 80 60 ⟨2 / 5, 3 / 5⟩).1 (by norm_num)

/-- C8: `getScoreTier` classifies by inclusive lower bounds 90/75/50/25 with
boundary values in the higher tier; the five spec boundary examples hold. -/
theorem C8_tier_thresholds (s : ℚ) :
    (90 ≤ s → getScoreTier s = "excellent") ∧
    (75 ≤ s ∧ s < 90 → getScoreTier s = "good") ∧
    (50 ≤ s ∧ s < 75 → getScoreTier s = "average") ∧
    (25 ≤ s ∧ s < 50 → getScoreTier s = "below_average") ∧
    (s < 25 → getScoreTier s = "poor") ∧
    getScoreTier 90 = "excellent" ∧ getScoreTier 89 = "good" ∧
    getScoreTier 74 = "average" ∧ getScoreTier 49 = "below_average" ∧
    getScoreTier 24 = "poor" := by
  refine ⟨?_, ?_, ?_, ?_, ?_, by norm_num [getScoreTier], by norm_num [getScoreTier],
    by norm_num [getScoreTier], by norm_num [getScoreTier], by norm_num [getScoreTier]⟩ <;>
    intro h <;> unfold getScoreTier <;> split_ifs <;>
    first
      | rfl
      | (exfalso; rcases h with ⟨h1, h2⟩ <;> linarith)
      | (exfalso; linarith)

/-- C8 witness: a score of 95 is classified excellent via the threshold
clause. -/
theorem C8_witness : getScoreTier 95 = "excellent" :=
  (C8_tier_thresholds 95).1 (by norm_num)

/-- Each histogram field of `bumpBucket` increments exactly when the score's
tier matches, since `bumpBucket` tests the same thresholds as `getScoreTier`. -/
theorem bumpBucket_tiers (d : Distribution) (s : ℚ) :
    (bumpBucket d s).excellent =
      d.excellent + (if getScoreTier s = "excellent" then 1 else 0) ∧
    (bumpBucket d s).good = d.good + (if getScoreTier s = "good" then 1 else 0) ∧
    (bumpBucket d s).average =
      d.average + (if getScoreTier s = "average" then 1 else 0) ∧
    (bumpBucket d s).below_average =
      d.below_average + (if getScoreTier s = "below_average" then 1 else 0) ∧
    (bumpBucket d s).poor = d.poor + (if getScoreTier s = "poor" then 1 else 0) := by
  unfold bumpBucket getScoreTier
  split_ifs <;> refine ⟨?_, ?_, ?_, ?_, ?_⟩ <;> simp_all

/-- Counting lemma for the `calculateScoreDistribution` fold. -/
theorem foldl_bumpBucket_counts (l : List ℚ) (d : Distribution) :
    (l.foldl bumpBucket d).excellent =
      d.excellent + l.countP (fun s => decide (getScoreTier s = "excellent")) ∧
    (l.foldl bumpBucket d).good =
      d.good + l.countP (fun s => decide (getScoreTier s = "good")) ∧
    (l.foldl bumpBucket d).average =
      d.average + l.countP (fun s => decide (getScoreTier s = "average")) ∧
    (l.foldl bumpBucket d).below_average =
      d.below_average + l.countP (fun s => decide (getScoreTier s = "below_average")) ∧
    (l.foldl bumpBucket d).poor =
      d.poor + l.countP (fun s => decide (getScoreTier s = "poor")) := by
  induction l generalizing d with
  | nil => simp
  | cons s rest ih =>
    rcases bumpBucket_tiers d s with ⟨b1, b2, b3, b4, b5⟩
    rcases ih (bumpBucket d s) with ⟨h1, h2, h3, h4, h5⟩
    rw [List.foldl_cons]
    refine ⟨?_, ?_, ?_, ?_, ?_⟩ <;> rw [List.countP_cons]
    · rw [h1, b1]
      by_cases hc : getScoreTier s = "excellent" <;> simp [hc] <;> omega
    · rw [h2, b2]
      by_cases hc : getScoreTier s = "good" <;> simp [hc] <;> omega
    · rw [h3, b3]
      by_cases hc : getScoreTier s = "average" <;> simp [hc] <;> omega
    · rw [h4, b4]
      by_cases hc : getScoreTier s = "below_average" <;> simp [hc] <;> omega
    · rw [h5, b5]
      by_cases hc : getScoreTier s = "poor" <;> simp [hc] <;> omega

/-- C9: `calculateScoreDistribution` returns exactly the five tier buckets,
retrievable under their literal labels even on empty input, each input score
counted in the bucket of its tier; the spec's example holds. -/
theorem C9_distribution_buckets (scores : List ℚ) :
    (calculateScoreDistribution scores).excellent =
      scores.countP (fun s => decide (getScoreTier s = "excellent")) ∧
    (calculateScoreDistribution scores).good =
      scores.countP (fun s => decide (getScoreTier s = "good")) ∧
    (calculateScoreDistribution scores).average =
      scores.countP (fun s => decide (getScoreTier s = "average")) ∧
    (calculateScoreDistribution scores).below_average =
      scores.countP (fun s => decide (getScoreTier s = "below_average")) ∧
    (calculateScoreDistribution scores).poor =
      scores.countP (fun s => decide (getScoreTier s = "poor")) ∧
    (calculateScoreDistribution scores).get "excellent (90-100)" =
      some (calculateScoreDistribution scores).excellent ∧
    (calculateScoreDistribution scores).get "good (75-89)" =
      some (calculateScoreDistribution scores).good ∧
    (calculateScoreDistribution scores).get "average (50-74)" =
      some (calculateScoreDistribution scores).average ∧
    (calculateScoreDistribution scores).get "below_average (25-49)" =
      some (calculateScoreDistribution scores).below_average ∧
    (calculateScoreDistribution scores).get "poor (0-24)" =
      some (calculateScoreDistribution scores).poor ∧
    calculateScoreDistribution [] = ⟨0, 0, 0, 0, 0⟩ ∧
    calculateScoreDistribution [100, 95, 80, 60, 30, 10] = ⟨2, 1, 1, 1, 1⟩ := by
  rcases foldl_bumpBucket_counts scores ⟨0, 0, 0, 0, 0⟩ with ⟨h1, h2, h3, h4, h5⟩
  unfold calculateScoreDistribution
  refine ⟨by rw [h1]; simp, by rw [h2]; simp, by rw [h3]; simp,
    by rw [h4]; simp, by rw [h5]; simp,
    rfl, rfl, rfl, rfl, rfl, rfl, ?_⟩
  norm_num [bumpBucket]

/-- C10: every record of `batchCalculateScores` carries
`overallScore = round(0.4 * velocityScore + 0.6 * roiScore)`, the overall
score at the fixed default weights. -/
theorem C10_batch_default_weights (placements : List Placement) :
    ∀ sp ∈ batchCalculateScores placements,
      sp.overallScore =
        jsRound ((2 / 5) * (sp.velocityScore : ℚ) + (3 / 5) * (sp.roiScore : ℚ)) := by
  intro sp hsp
  unfold batchCalculateScores at hsp
  rcases List.mem_map.mp hsp with ⟨p, hp, rfl⟩
  dsimp only
  rw [calculateOverallScore_eq, normalizeWeights_eq,
    if_neg (by norm_num [defaultWeights] :
      ¬ (defaultWeights.velocity + defaultWeights.roi = 0))]
  congr 1
  norm_num [defaultWeights]
  ring

/-- C10 witness: the all-absent placement batch-scores to the record with
overall score 0, which satisfies the default-weight formula. -/
theorem C10_witness :
    (⟨emptyPlacement, 0, 0, 0⟩ : ScoredPlacement).overallScore =
      jsRound ((2 / 5) * ((0 : ℤ) : ℚ) + (3 / 5) * ((0 : ℤ) : ℚ)) := by
  refine C10_batch_default_weights [emptyPlacement] ⟨emptyPlacement, 0, 0, 0⟩ ?_
  have hb : batchCalculateScores [emptyPlacement] = [⟨emptyPlacement, 0, 0, 0⟩] := by
    norm_num [batchCalculateScores, emptyPlacement, calculateVelocityScore,
      calculateROIScore, calculateOverallScore, normalizeWeights, defaultWeights,
      jsRound, DateField.orElse, DateField.toMs]
  rw [hb]
  exact List.mem_singleton_self _

/-- The loop body fails precisely on a non-parsing fill timestamp: the
throwing case. -/
theorem stepVelocity_none (st : List VBSAcc × List TrendAcc) (sp : ScoredPlacement)
    (h : (sp.base.startDate.orElse sp.base.createdAt).toMs = none) :
    stepVelocity st sp = .error "RangeError: Invalid time value" := by
  simp [stepVelocity, h]

/-- The loop body succeeds on a parsing fill timestamp. -/
theorem stepVelocity_some (st : List VBSAcc × List TrendAcc) (sp : ScoredPlacement)
    (ms : ℚ) (h : (sp.base.startDate.orElse sp.base.createdAt).toMs = some ms) :
    ∃ st', stepVelocity st sp = Except.ok st' := by
  simp only [stepVelocity, h]
  exact ⟨_, rfl⟩

/-- The velocity loop completes exactly when every record's fill timestamp
parses. -/
theorem velocityLoop_ok_iff (l : List ScoredPlacement) :
    ∀ st, (∃ st', velocityLoop st l = Except.ok st') ↔
      ∀ sp ∈ l, ∃ ms, (sp.base.startDate.orElse sp.base.createdAt).toMs = some ms := by
  induction l with
  | nil =>
    intro st
    simp [velocityLoop]
  | cons sp rest ih =>
    intro st
    cases hms : (sp.base.startDate.orElse sp.base.createdAt).toMs with
    | none =>
      constructor
      · rintro ⟨st', hok⟩
        rw [show velocityLoop st (sp :: rest) =
            (match stepVelocity st sp with
              | .error e => .error e
              | .ok st2 => velocityLoop st2 rest) from rfl,
          stepVelocity_none st sp hms] at hok
        cases hok
      · intro hall
        rcases hall sp (List.mem_cons_self sp rest) with ⟨ms, hsome⟩
        rw [hms] at hsome
        cases hsome
    | some ms =>
      rcases stepVelocity_some st sp ms hms with ⟨st2, hstep⟩
      rw [show velocityLoop st (sp :: rest) =
          (match stepVelocity st sp with
            | .error e => .error e
            | .ok st2 => velocityLoop st2 rest) from rfl,
        hstep]
      constructor
      · intro hex sp2 hsp2
        rcases List.mem_cons.mp hsp2 with rfl | h2
        · exact ⟨ms, hms⟩
        · exact ((ih st2).mp hex) sp2 h2
      · intro hall
        exact (ih st2).mpr (fun sp2 h2 => hall sp2 (List.mem_cons_of_mem _ h2))

/-- A property of the underlying placement holds for every batch record iff
it holds for every input placement (the batch preserves the base record). -/
theorem forall_batch_iff (ps : List Placement) (P : Placement → Prop) :
    (∀ sp ∈ batchCalculateScores ps, P sp.base) ↔ ∀ p ∈ ps, P p := by
  unfold batchCalculateScores
  constructor
  · intro h p hp
    exact h _ (List.mem_map_of_mem _ hp)
  · intro h sp hsp
    rcases List.mem_map.mp hsp with ⟨p, hp, rfl⟩
    exact h p hp

/-- `getPlacementVelocityData` returns a result exactly when every
placement's fill timestamp (`startDate || createdAt`) parses. -/
theorem getPlacementVelocityData_ok_iff (ps : List Placement) :
    (∃ dash, getPlacementVelocityData ps = Except.ok dash) ↔
      ∀ p ∈ ps, ∃ ms, (p.startDate.orElse p.createdAt).toMs = some ms := by
  unfold getPlacementVelocityData
  cases hloop : velocityLoop ([], []) (batchCalculateScores ps) with
  | error e =>
    simp only [hloop]
    constructor
    · rintro ⟨dash, h⟩
      cases h
    · intro hall
      exfalso
      rcases (velocityLoop_ok_iff (batchCalculateScores ps) ([], [])).mpr
          ((forall_batch_iff ps
            (fun q => ∃ ms, (q.startDate.orElse q.createdAt).toMs = some ms)).mpr hall)
        with ⟨st', h⟩
      rw [hloop] at h
      cases h
  | ok st =>
    obtain ⟨vbs, trend⟩ := st
    simp only [hloop]
    constructor
    · intro _
      exact (forall_batch_iff ps
          (fun q => ∃ ms, (q.startDate.orElse q.createdAt).toMs = some ms)).mp
        ((velocityLoop_ok_iff (batchCalculateScores ps) ([], [])).mp ⟨_, hloop⟩)
    · intro _
      exact ⟨_, rfl⟩

/-- C2 (amended): the scoring functions are total — a malformed fill
timestamp scores 0 — and `batchCalculateScores` returns one record per
input; but `getPlacementVelocityData` returns a result exactly when every
placement's fill timestamp parses, throwing otherwise. -/
theorem C2_dashboard_requires_parsable_dates (ps : List Placement) :
    ((∃ dash, getPlacementVelocityData ps = Except.ok dash) ↔
      ∀ p ∈ ps, ∃ ms, (p.startDate.orElse p.createdAt).toMs = some ms) ∧
    (batchCalculateScores ps).length = ps.length ∧
    (∀ p j?, (p.startDate.orElse p.createdAt).toMs = none →
      calculateVelocityScore (some p) j? = 0) := by
  refine ⟨getPlacementVelocityData_ok_iff ps, by simp [batchCalculateScores], ?_⟩
  intro p j? h
  cases j? with
  | none => rfl
  | some j =>
    show ((match (j.createdAt.orElse j.openDate).toMs,
        (p.startDate.orElse p.createdAt).toMs with
      | some jobMs, some fillMs =>
        let daysToFill : ℚ := (fillMs - jobMs) / msPerDay
        if daysToFill < 0 then 100
        else jsRound (max 10 (min 100 (100 - daysToFill * 2)))
      | _, _ => 0 : ℤ)) = 0
    rw [h]
    cases (j.createdAt.orElse j.openDate).toMs <;> rfl

/-- C2 counterexample to the claim as frozen: a single placement whose fill
timestamp is missing makes `getPlacementVelocityData` throw the
`toISOString` RangeError instead of completing, aborting the batch report. -/
theorem C2_counterexample :
    getPlacementVelocityData [emptyPlacement] =
      Except.error "RangeError: Invalid time value" := by
  have hbatch : batchCalculateScores [emptyPlacement] =
      [⟨emptyPlacement, 0, 0, 0⟩] := by
    norm_num [batchCalculateScores, emptyPlacement, calculateVelocityScore,
      calculateROIScore, calculateOverallScore, normalizeWeights, defaultWeights,
      jsRound, DateField.orElse, DateField.toMs]
  have hstep := stepVelocity_none ([], []) ⟨emptyPlacement, 0, 0, 0⟩ rfl
  simp only [getPlacementVelocityData]
  rw [hbatch]
  rw [show velocityLoop ([], []) [(⟨emptyPlacement, 0, 0, 0⟩ : ScoredPlacement)] =
      (match stepVelocity ([], []) ⟨emptyPlacement, 0, 0, 0⟩ with
        | .error e => .error e
        | .ok st' => velocityLoop st' []) from rfl]
  rw [hstep]

/-- C2 witness: with a parsing fill timestamp the dashboard call completes,
and a malformed placement's velocity score is 0. -/
theorem C2_witness :
    (∃ dash, getPlacementVelocityData [epochPlacement] = Except.ok dash) ∧
    calculateVelocityScore (some emptyPlacement) none = 0 := by
  constructor
  · refine (C2_dashboard_requires_parsable_dates [epochPlacement]).1.mpr ?_
    intro p hp
    rcases List.mem_singleton.mp hp with rfl
    exact ⟨0, rfl⟩
  · exact (C2_dashboard_requires_parsable_dates []).2.2 emptyPlacement none rfl

/-- The grouping step's update function never changes an entry's key. -/
theorem addPlacement_key_fix (p : Placement) (a : LineAcc) :
    ((if a.serviceLine = slKey p then bump p a else a) : LineAcc).serviceLine =
      a.serviceLine := by
  split_ifs <;> rfl

/-- Effect of one grouping iteration on the entry retrieved for a key. -/
theorem find?_addPlacement (acc : List LineAcc) (p : Placement) (k : String) :
    (addPlacement acc p).find? (fun a => a.serviceLine = k) =
      if slKey p = k then
        some (bump p ((acc.find? (fun a => a.serviceLine = k)).getD (initAcc k)))
      else acc.find? (fun a => a.serviceLine = k) := by
  have hcomp : (fun a : LineAcc => decide (a.serviceLine = k)) ∘
      (fun a => if a.serviceLine = slKey p then bump p a else a) =
      (fun a : LineAcc => decide (a.serviceLine = k)) := by
    funext a
    simp only [Function.comp]
    congr 1
    rw [addPlacement_key_fix]
  simp only [addPlacement]
  by_cases hany : acc.any (fun a => a.serviceLine = slKey p) = true
  · rw [if_pos hany, List.find?_map, hcomp]
    by_cases hk : slKey p = k
    · subst hk
      have hsome : (acc.find? (fun a => a.serviceLine = slKey p)).isSome :=
        List.find?_isSome.mpr (List.any_eq_true.mp hany)
      rcases Option.isSome_iff_exists.mp hsome with ⟨a1, ha1⟩
      have hkey1 : a1.serviceLine = slKey p := by
        have hfs := List.find?_some ha1
        simpa using hfs
      rw [if_pos rfl, ha1]
      simp only [Option.map_some', Option.getD_some]
      rw [if_pos hkey1]
    · rw [if_neg hk]
      cases hfind : acc.find? (fun a => a.serviceLine = k) with
      | none => rfl
      | some a1 =>
        have hkey1 : a1.serviceLine = k := by
          have hfs := List.find?_some hfind
          simpa using hfs
        simp only [Option.map_some']
        rw [if_neg (by rw [hkey1]; exact fun hh => hk hh.symm)]
  · rw [if_neg hany, List.find?_append]
    by_cases hk : slKey p = k
    · subst hk
      have hnone : acc.find? (fun a => a.serviceLine = slKey p) = none :=
        List.find?_eq_none.mpr (fun a ha hdec =>
          hany (List.any_eq_true.mpr ⟨a, ha, hdec⟩))
      have hx : List.find? (fun a => a.serviceLine = slKey p)
          [bump p (initAcc (slKey p))] = some (bump p (initAcc (slKey p))) := by
        have : (bump p (initAcc (slKey p))).serviceLine = slKey p := rfl
        simp [List.find?, this]
      rw [hnone, hx, if_pos rfl, Option.getD_none]
      rfl
    · rw [if_neg hk]
      have hx : List.find? (fun a => a.serviceLine = k)
          [bump p (initAcc (slKey p))] = none := by
        have hxkey : ¬ ((bump p (initAcc (slKey p))).serviceLine = k) := hk
        simp [List.find?, hxkey]
      rw [hx]
      cases acc.find? (fun a => a.serviceLine = k) <;> rfl

/-- The entry retrieved for a key after the whole grouping fold is the
initial entry bumped by exactly the placements whose key matches. -/
theorem find?_foldl_addPlacement (ps : List Placement) :
    ∀ acc k, (ps.foldl addPlacement acc).find? (fun a => a.serviceLine = k) =
      ((ps.filter (fun p => slKey p = k)).foldl
        (fun o p => some (bump p (o.getD (initAcc k))))
        (acc.find? (fun a => a.serviceLine = k))) := by
  induction ps with
  | nil => intro acc k; rfl
  | cons p rest ih =>
    intro acc k
    rw [List.foldl_cons, ih (addPlacement acc p) k, find?_addPlacement]
    by_cases hk : slKey p = k
    · rw [if_pos hk, List.filter_cons_of_pos (by simpa using hk), List.foldl_cons]
    · rw [if_neg hk, List.filter_cons_of_neg (by simpa using hk)]

/-- Once the optional accumulator is populated, the fold is a plain fold of
`bump`. -/
theorem foldl_some_bump (l : List Placement) :
    ∀ (k : String) (a : LineAcc),
      l.foldl (fun o p => some (bump p (o.getD (initAcc k)))) (some a) =
        some (l.foldl (fun a p => bump p a) a) := by
  induction l with
  | nil => intro k a; rfl
  | cons p rest ih =>
    intro k a
    rw [List.foldl_cons, List.foldl_cons]
    exact ih k (bump p a)

/-- Fold from an absent entry: `none` exactly on the empty list, otherwise
the fold of `bump` from the fresh entry. -/
theorem foldl_none_bump (l : List Placement) (k : String) :
    l.foldl (fun o p => some (bump p (o.getD (initAcc k)))) none =
      if l.isEmpty then none
      else some (l.foldl (fun a p => bump p a) (initAcc k)) := by
  cases l with
  | nil => rfl
  | cons p rest =>
    rw [List.foldl_cons, List.foldl_cons]
    simp only [List.isEmpty_cons, if_neg]
    exact foldl_some_bump rest k (bump p (initAcc k))

/-- Field-wise description of folding `bump` over a list of placements. -/
theorem foldl_bump_fields (l : List Placement) :
    ∀ a : LineAcc,
      (l.foldl (fun a p => bump p a) a).serviceLine = a.serviceLine ∧
      (l.foldl (fun a p => bump p a) a).placementCount =
        a.placementCount + l.length ∧
      (l.foldl (fun a p => bump p a) a).totalRevenue =
        a.totalRevenue + (l.map (fun p => p.revenue.getD 0)).sum ∧
      (l.foldl (fun a p => bump p a) a).totalMargin =
        a.totalMargin + (l.map (fun p => p.margin.getD 0)).sum ∧
      (l.foldl (fun a p => bump p a) a).velocityScores =
        a.velocityScores ++ (l.filter (fun p => numTruthy p.velocityScore)).map
          (fun p => p.velocityScore.getD 0) := by
  induction l with
  | nil => intro a; simp
  | cons p rest ih =>
    intro a
    rw [List.foldl_cons]
    rcases ih (bump p a) with ⟨h1, h2, h3, h4, h5⟩
    refine ⟨by rw [h1]; rfl, ?_, ?_, ?_, ?_⟩
    · rw [h2]
      show a.placementCount + 1 + rest.length = _
      simp [Nat.add_assoc, Nat.add_comm 1]
    · rw [h3]
      show a.totalRevenue + p.revenue.getD 0 + _ = _
      rw [List.map_cons, List.sum_cons]
      ring
    · rw [h4]
      show a.totalMargin + p.margin.getD 0 + _ = _
      rw [List.map_cons, List.sum_cons]
      ring
    · rw [h5]
      by_cases ht : numTruthy p.velocityScore = true
      · have hb : (bump p a).velocityScores =
            a.velocityScores ++ [p.velocityScore.getD 0] := by
          simp [bump, ht]
        rw [hb, List.filter_cons, if_pos ht, List.map_cons, List.append_assoc]
        rfl
      · have hb : (bump p a).velocityScores = a.velocityScores := by
          simp [bump, ht]
        rw [hb, List.filter_cons, if_neg ht]

/-- One grouping iteration keeps the key list duplicate-free. -/
theorem nodup_addPlacement (acc : List LineAcc) (p : Placement)
    (h : (acc.map (fun a => a.serviceLine)).Nodup) :
    ((addPlacement acc p).map (fun a => a.serviceLine)).Nodup := by
  simp only [addPlacement]
  by_cases hany : acc.any (fun a => a.serviceLine = slKey p) = true
  · rw [if_pos hany, List.map_map]
    have : ((fun a : LineAcc => a.serviceLine) ∘
        (fun a => if a.serviceLine = slKey p then bump p a else a)) =
        (fun a : LineAcc => a.serviceLine) := by
      funext a
      exact addPlacement_key_fix p a
    rw [this]
    exact h
  · rw [if_neg hany, List.map_append]
    rw [List.nodup_append]
    refine ⟨h, List.nodup_singleton _, ?_⟩
    intro x hx hx1
    have hxk : x = slKey p := by
      simpa [bump, initAcc] using hx1
    subst hxk
    rcases List.mem_map.mp hx with ⟨a, ha, hak⟩
    exact hany (List.any_eq_true.mpr ⟨a, ha, by simpa using hak⟩)

/-- The whole grouping fold keeps the key list duplicate-free. -/
theorem nodup_foldl_addPlacement (ps : List Placement) :
    ∀ acc, (acc.map (fun a => a.serviceLine)).Nodup →
      ((ps.foldl addPlacement acc).map (fun a => a.serviceLine)).Nodup := by
  induction ps with
  | nil => intro acc h; exact h
  | cons p rest ih =>
    intro acc h
    rw [List.foldl_cons]
    exact ih (addPlacement acc p) (nodup_addPlacement acc p h)

/-- With duplicate-free keys, any member with the looked-up key is the
`find?` result. -/
theorem find?_of_mem_nodup (att : List LineStat) (s : LineStat) (k : String)
    (hn : (att.map (fun a => a.serviceLine)).Nodup) (hmem : s ∈ att)
    (hk : s.serviceLine = k) :
    att.find? (fun a => a.serviceLine = k) = some s := by
  induction att with
  | nil => cases hmem
  | cons a rest ih =>
    rw [List.map_cons, List.nodup_cons] at hn
    rcases List.mem_cons.mp hmem with rfl | hmem2
    · rw [List.find?_cons_of_pos rest (by simpa using hk)]
    · have hak : ¬ (a.serviceLine = k) := by
        intro hak
        exact hn.1 (by
          rw [hak, ← hk]
          exact List.mem_map.mpr ⟨s, hmem2, rfl⟩)
      rw [List.find?_cons_of_neg rest (by simpa using hak)]
      exact ih hn.2 hmem2

/-- `find?` by key commutes with the averaging pass. -/
theorem find?_map_finalize (l : List LineAcc) (k : String) :
    (l.map finalizeAcc).find? (fun s => s.serviceLine = k) =
      (l.find? (fun a => a.serviceLine = k)).map finalizeAcc := by
  rw [List.find?_map]
  congr 1

/-- C3 (amended): the attribution groups placements totally by service-line
key with duplicate-free keys; each group's count and revenue/margin sums
range over exactly its placements, and `averageVelocity` is the rounded mean
over exactly those of its placements whose `velocityScore` is *truthy*
(present and nonzero) — 0 when there are none. -/
theorem C3_service_line_groups (ps : List Placement) (k : String) :
    ((calculateServiceLineAttribution ps).map (fun s => s.serviceLine)).Nodup ∧
    ((∃ s ∈ calculateServiceLineAttribution ps, s.serviceLine = k) ↔
      ∃ p ∈ ps, slKey p = k) ∧
    ∀ s ∈ calculateServiceLineAttribution ps, s.serviceLine = k →
      s.placementCount = (ps.filter (fun p => slKey p = k)).length ∧
      s.totalRevenue =
        ((ps.filter (fun p => slKey p = k)).map (fun p => p.revenue.getD 0)).sum ∧
      s.totalMargin =
        ((ps.filter (fun p => slKey p = k)).map (fun p => p.margin.getD 0)).sum ∧
      s.averageVelocity =
        (if 0 < (((ps.filter (fun p => slKey p = k)).filter
            (fun p => numTruthy p.velocityScore)).map
            (fun p => p.velocityScore.getD 0)).length then
          jsRound ((((ps.filter (fun p => slKey p = k)).filter
            (fun p => numTruthy p.velocityScore)).map
            (fun p => p.velocityScore.getD 0)).sum /
            ((((ps.filter (fun p => slKey p = k)).filter
              (fun p => numTruthy p.velocityScore)).map
              (fun p => p.velocityScore.getD 0)).length : ℚ))
        else 0) := by
  have hnodup : ((calculateServiceLineAttribution ps).map
      (fun s => s.serviceLine)).Nodup := by
    unfold calculateServiceLineAttribution
    rw [List.map_map]
    have hco : ((fun s : LineStat => s.serviceLine) ∘ finalizeAcc) =
        (fun a : LineAcc => a.serviceLine) := rfl
    rw [hco]
    exact nodup_foldl_addPlacement ps [] (by simp)
  have hfind : (calculateServiceLineAttribution ps).find?
        (fun s => s.serviceLine = k) =
      ((ps.filter (fun p => slKey p = k)).foldl
        (fun o p => some (bump p (o.getD (initAcc k)))) none).map finalizeAcc := by
    unfold calculateServiceLineAttribution
    rw [find?_map_finalize, find?_foldl_addPlacement]
    rfl
  have hiff : (∃ s ∈ calculateServiceLineAttribution ps, s.serviceLine = k) ↔
      ∃ p ∈ ps, slKey p = k := by
    constructor
    · intro hex
      have hsome : ((calculateServiceLineAttribution ps).find?
          (fun s => s.serviceLine = k)).isSome :=
        List.find?_isSome.mpr (by
          rcases hex with ⟨s, hs, hk2⟩
          exact ⟨s, hs, by simpa using hk2⟩)
      rw [hfind, foldl_none_bump] at hsome
      by_cases hempty : (ps.filter (fun p => slKey p = k)).isEmpty = true
      · rw [if_pos hempty] at hsome
        simp at hsome
      · simpa [List.isEmpty_iff] using hempty
    · rintro ⟨p, hp, hpk⟩
      have hne : ps.filter (fun q => slKey q = k) ≠ [] := by
        intro hnil
        have hmem : p ∈ ps.filter (fun q => slKey q = k) :=
          List.mem_filter.mpr ⟨hp, by simpa using hpk⟩
        rw [hnil] at hmem
        cases hmem
      have hsome : ((calculateServiceLineAttribution ps).find?
          (fun s => s.serviceLine = k)).isSome := by
        rw [hfind, foldl_none_bump,
          if_neg (by simpa [List.isEmpty_iff] using hne)]
        rfl
      rcases Option.isSome_iff_exists.mp hsome with ⟨s, hs⟩
      exact ⟨s, List.mem_of_find?_eq_some hs, by simpa using List.find?_some hs⟩
  refine ⟨hnodup, hiff, ?_⟩
  intro s hs hsk
  have hfs : (calculateServiceLineAttribution ps).find?
      (fun a => a.serviceLine = k) = some s :=
    find?_of_mem_nodup _ s k hnodup hs hsk
  rw [hfind, foldl_none_bump] at hfs
  by_cases hempty : (ps.filter (fun p => slKey p = k)).isEmpty = true
  · rw [if_pos hempty] at hfs
    simp at hfs
  · rw [if_neg hempty] at hfs
    simp only [Option.map_some'] at hfs
    have hseq : finalizeAcc ((ps.filter (fun p => slKey p = k)).foldl
        (fun a p => bump p a) (initAcc k)) = s := by
      injection hfs
    rcases foldl_bump_fields (ps.filter (fun p => slKey p = k)) (initAcc k) with
      ⟨hf1, hf2, hf3, hf4, hf5⟩
    subst hseq
    simp only [finalizeAcc]
    refine ⟨?_, ?_, ?_, ?_⟩
    · rw [hf2]
      simp [initAcc]
    · rw [hf3]
      simp [initAcc]
    · rw [hf4]
      simp [initAcc]
    · rw [hf5]
      simp only [initAcc, List.nil_append]

/-- C3 counterexample to the claim as frozen: both placements carry a
`velocityScore` field (100 and 0), so the claimed rounded mean over the
carriers is 50, but the code's truthiness test drops the zero-valued score
and reports 100. -/
theorem C3_counterexample :
    (calculateServiceLineAttribution [linePlacementHi, linePlacementZero]).map
      (fun s => s.averageVelocity) = [100] ∧
    jsRound ((([linePlacementHi, linePlacementZero].filterMap
        Placement.velocityScore).sum) /
      (([linePlacementHi, linePlacementZero].filterMap
        Placement.velocityScore).length : ℚ)) = 50 ∧
    (100 : ℤ) ≠ 50 := by
  have hA : strOr (some "A") "Unassigned" = "A" := by decide
  refine ⟨?_, ?_, by norm_num⟩
  · norm_num [calculateServiceLineAttribution, addPlacement, slKey, hA,
      linePlacementHi, linePlacementZero, initAcc, bump, numTruthy,
      finalizeAcc, jsRound]
  · norm_num [linePlacementHi, linePlacementZero, List.filterMap, jsRound]

/-- C3 witness: at the concrete two-placement input, the group's count
equals the number of its placements. -/
theorem C3_witness :
    (⟨"A", 2, 0, 0, 100⟩ : LineStat).placementCount =
      ([linePlacementHi, linePlacementZero].filter
        (fun p => slKey p = "A")).length := by
  have hA : strOr (some "A") "Unassigned" = "A" := by decide
  have hmem : (⟨"A", 2, 0, 0, 100⟩ : LineStat) ∈
      calculateServiceLineAttribution [linePlacementHi, linePlacementZero] := by
    have heq : calculateServiceLineAttribution
        [linePlacementHi, linePlacementZero] = [⟨"A", 2, 0, 0, 100⟩] := by
      norm_num [calculateServiceLineAttribution, addPlacement, slKey, hA,
        linePlacementHi, linePlacementZero, initAcc, bump, numTruthy,
        finalizeAcc, jsRound]
    rw [heq]
    exact List.mem_singleton_self _
  exact ((C3_service_line_groups [linePlacementHi, linePlacementZero] "A").2.2
    ⟨"A", 2, 0, 0, 100⟩ hmem rfl).1
